import Mathlib

/-!
Verification of the key derivation, dispatch, SSR prefetch and subscription
logic of the trpc-svelte-query adapter, as a shallow embedding of
src/@lib/src/index.ts.

JavaScript runtime values are modelled by the inductive type JsVal below.
Objects and arrays are cons-encoded (an object is a sequence of objCons
cells ending in objNil), which is isomorphic to the association-list view
of a JS object literal; field lookup takes the first matching key, and
object literals built by the adapter never repeat a key.
-/

/-- Model of a JavaScript runtime value as it flows through the adapter:
undefined, null, booleans, numbers (with Infinity kept separate), strings,
arrays and objects. -/
inductive JsVal where
  | undefined
  | null
  | bool (b : Bool)
  | num (n : Int)
  | inf
  | str (s : String)
  | arrNil
  | arrCons (head tail : JsVal)
  | objNil
  | objCons (key : String) (value rest : JsVal)
deriving DecidableEq, Repr

/-- JavaScript truthiness: undefined, null, false, 0 and the empty string
are falsy; every object and array (and Infinity) is truthy. -/
def truthy : JsVal → Bool
  | .undefined => false
  | .null => false
  | .bool b => b
  | .num n => n != 0
  | .inf => true
  | .str s => s != ""
  | .arrNil => true
  | .arrCons _ _ => true
  | .objNil => true
  | .objCons _ _ _ => true

/-- Field access on a JS object: first matching key wins; access on a
non-object value (or a missing key) yields undefined. -/
def jsObjGet : JsVal → String → JsVal
  | .objCons key value rest, k => if key = k then value else jsObjGet rest k
  | _, _ => .undefined

/-- Optional chaining v?.k: undefined and null short-circuit to undefined,
otherwise an ordinary field access. -/
def jsOptChain (v : JsVal) (k : String) : JsVal :=
  match v with
  | .undefined => .undefined
  | .null => .undefined
  | w => jsObjGet w k

/-- Models the object literal spread pattern of the source where a single
field is overridden or appended, as in the queryFn input
of the infiniteQuery procedure: the field keeps its position when already
present, otherwise it is appended; spreading a non-object contributes no
fields. -/
def objSetField : JsVal → String → JsVal → JsVal
  | .objCons key value rest, k, x =>
      if key = k then .objCons key x rest
      else .objCons key value (objSetField rest k x)
  | _, k, x => .objCons k x .objNil

/-- Nullish coalescing a ?? b. -/
def jsNullish (a b : JsVal) : JsVal :=
  match a with
  | .undefined => b
  | .null => b
  | v => v

/-- The access-type tag accepted by getArrayQueryKey. The adapter also
passes the tag through unchecked from getQueryKey, where it may be absent
(undefined); absence is modelled by Option.none at use sites. -/
inductive QueryType where
  | query
  | infinite
  | any
deriving DecidableEq, Repr

/-- The three shapes a derived cache key can take in the source: the empty
array, a one-element array holding the path, or path plus a descriptor
with optional input and optional type fields. -/
inductive QueryKey where
  | empty
  | pathOnly (path : List String)
  | withDesc (path : List String) (input : Option JsVal) (type : Option QueryType)
deriving DecidableEq, Repr

/-- The first argument of getArrayQueryKey in the source is either a
dot-delimited string or an already-split array of segments. -/
inductive KeyPathArg where
  | ofString (s : String)
  | ofList (segments : List String)
deriving DecidableEq

/-- Shallow embedding of getArrayQueryKey (src/@lib/src/index.ts lines
1129 to 1154). A string path is split on dots (the empty string giving the
empty path). When the input is falsy and the type tag is absent or any,
the result is the bare path, or the empty array for an empty path.
Otherwise the result carries a descriptor whose input field is present
exactly when the input is not undefined and whose type field is present
exactly when the tag is present and not any. -/
def getArrayQueryKey (queryKey : KeyPathArg) (input : JsVal)
    (type : Option QueryType) : QueryKey :=
  let arrayPath : List String :=
    match queryKey with
    | .ofString s => if s = "" then [] else s.splitOn "."
    | .ofList xs => xs
  if truthy input = false ∧ (type = none ∨ type = some QueryType.any) then
    if arrayPath.length ≠ 0 then .pathOnly arrayPath else .empty
  else
    .withDesc arrayPath
      (if input = JsVal.undefined then none else some input)
      (match type with
        | some t => if t = QueryType.any then none else some t
        | none => none)

/-- Shallow embedding of the getQueryKey dispatch entry
(src/@lib/src/index.ts lines 792 to 794): it forwards the recorded path,
the input and the optional type argument directly to getArrayQueryKey. -/
def procQueryKeyEntry (path : List String) (input : JsVal)
    (typeArg : Option QueryType) : QueryKey :=
  getArrayQueryKey (.ofList path) input typeArg

/-- Helper: with a present type tag other than any, getArrayQueryKey always
takes the descriptor branch, embedding the input exactly when it is not
undefined. -/
theorem getArrayQueryKey_typed (p : List String) (v : JsVal) (t : QueryType)
    (ht : t ≠ QueryType.any) :
    getArrayQueryKey (.ofList p) v (some t)
      = QueryKey.withDesc p (if v = JsVal.undefined then none else some v) (some t) := by
  unfold getArrayQueryKey
  cases t <;> simp_all

/-- C1: with absent input (undefined) and access type any, the derived key
is the one-element sequence holding the path when the path is non-empty,
and the empty sequence (not a nested empty sequence) when the path is
empty. -/
theorem getArrayQueryKey_absent_any (p : List String) :
    getArrayQueryKey (.ofList p) JsVal.undefined (some QueryType.any)
      = if p.isEmpty then QueryKey.empty else QueryKey.pathOnly p := by
  cases p <;> simp [getArrayQueryKey, truthy]

/-- C2 counterexample: with access type any, the defined falsy input 0
produces the bare path key, identical to the key derived for absent input
— the claim that every defined input yields a distinguishing descriptor
for every access type fails at access type any. -/
theorem falsy_input_any_collapses_cex :
    getArrayQueryKey (.ofList ["a"]) (.num 0) (some QueryType.any)
        = getArrayQueryKey (.ofList ["a"]) JsVal.undefined (some QueryType.any)
      ∧ getArrayQueryKey (.ofList ["a"]) (.num 0) (some QueryType.any)
        = QueryKey.pathOnly ["a"] := by
  constructor <;> rfl

/-- C2 amended: for the access types query and infinite (every access type
other than any), the derived key includes a descriptor whose input equals
the supplied defined value — including falsy defined values such as 0 —
and differs from the key derived for absent (undefined) input; with access
type any, a falsy defined input instead collapses to the bare path key. -/
theorem falsy_input_preserved_typed (p : List String) (v : JsVal)
    (t : QueryType) (hv : v ≠ JsVal.undefined) (ht : t ≠ QueryType.any) :
    getArrayQueryKey (.ofList p) v (some t)
        = QueryKey.withDesc p (some v) (some t)
      ∧ getArrayQueryKey (.ofList p) v (some t)
        ≠ getArrayQueryKey (.ofList p) JsVal.undefined (some t) := by
  have h1 := getArrayQueryKey_typed p v t ht
  have h2 := getArrayQueryKey_typed p JsVal.undefined t ht
  rw [if_neg hv] at h1
  rw [if_pos rfl] at h2
  refine ⟨h1, ?_⟩
  rw [h1, h2]
  simp

/-- Witness for the amended C2 at path a, input 0, access type query. -/
theorem falsy_input_preserved_typed_witness :
    ((JsVal.num 0 ≠ JsVal.undefined) ∧ (QueryType.query ≠ QueryType.any))
      ∧ (getArrayQueryKey (.ofList ["a"]) (.num 0) (some QueryType.query)
            = QueryKey.withDesc ["a"] (some (.num 0)) (some QueryType.query)
          ∧ getArrayQueryKey (.ofList ["a"]) (.num 0) (some QueryType.query)
            ≠ getArrayQueryKey (.ofList ["a"]) JsVal.undefined (some QueryType.query)) :=
  ⟨⟨by decide, by decide⟩,
    falsy_input_preserved_typed ["a"] (.num 0) QueryType.query
      (by decide) (by decide)⟩

/-- Shallow embedding of the cache-key side of the infiniteQuery dispatch
entry (src/@lib/src/index.ts lines 897 to 944): the queryKey passed to the
cache engine is derived from the recorded path and the caller input with
access type infinite, unchanged. -/
def infiniteQueryKeyOf (path : List String) (input : JsVal) : QueryKey :=
  getArrayQueryKey (.ofList path) input (some QueryType.infinite)

/-- Shallow embedding of the fetch-side input of the infiniteQuery dispatch
entry: the queryFn merges the page cursor over the caller input, sending
the spread of the input with the cursor field set to pageParam when the
page parameter is not nullish and to the configured initialCursor
otherwise. The page cursor reaches only this fetch input, never the
derived key. -/
def infiniteQueryFnInput (input pageParam initialCursor : JsVal) : JsVal :=
  objSetField input "cursor" (jsNullish pageParam initialCursor)

/-- Concrete infinite-query input holding a cursor field next to a filter
field, used to test pagination-field handling of the key deriver. -/
def exCursorFilterX : JsVal :=
  .objCons "cursor" (.num 5) (.objCons "filter" (.str "x") .objNil)

/-- Concrete infinite-query input holding only the filter field x. -/
def exFilterX : JsVal := .objCons "filter" (.str "x") .objNil

/-- Concrete infinite-query input holding only the filter field y. -/
def exFilterY : JsVal := .objCons "filter" (.str "y") .objNil

/-- C3 counterexample: getArrayQueryKey performs no pagination-field
stripping — the key derived for the input with a cursor field differs from
the key derived for the same input without it, refuting the claimed
equality. -/
theorem infinite_key_no_strip_cex :
    infiniteQueryKeyOf ["posts"] exCursorFilterX
      ≠ infiniteQueryKeyOf ["posts"] exFilterX := by
  decide

/-- C3 amended: the key deriver embeds the infinite-query input unchanged —
a cursor field supplied in the input lands in the key, so the key for the
cursor-bearing input differs both from the cursor-free input with the same
filter and from the input with a different filter; the cache is still not
fragmented per page because the varying page cursor is merged only into
the fetch input (queryFn) by the infiniteQuery entry, never into the
derived key. -/
theorem infinite_key_embeds_input_unchanged (p : List String) :
    infiniteQueryKeyOf p exCursorFilterX
        = QueryKey.withDesc p (some exCursorFilterX) (some QueryType.infinite)
      ∧ infiniteQueryKeyOf p exCursorFilterX ≠ infiniteQueryKeyOf p exFilterX
      ∧ infiniteQueryKeyOf p exCursorFilterX ≠ infiniteQueryKeyOf p exFilterY
      ∧ infiniteQueryFnInput exFilterX (.num 7) JsVal.null
          = .objCons "filter" (.str "x") (.objCons "cursor" (.num 7) .objNil) := by
  have hx := getArrayQueryKey_typed p exCursorFilterX QueryType.infinite (by decide)
  have h2 := getArrayQueryKey_typed p exFilterX QueryType.infinite (by decide)
  have h3 := getArrayQueryKey_typed p exFilterY QueryType.infinite (by decide)
  refine ⟨?_, ?_, ?_, ?_⟩
  · rw [infiniteQueryKeyOf, hx]; rfl
  · rw [infiniteQueryKeyOf, infiniteQueryKeyOf, hx, h2]; simp; decide
  · rw [infiniteQueryKeyOf, infiniteQueryKeyOf, hx, h3]; simp; decide
  · decide

/-- C4 counterexample: getQueryKey with input world and no type argument
does not return a descriptor carrying the type marker query — the type
field is absent, because the missing type argument is treated like any. -/
theorem getQueryKey_default_type_cex :
    procQueryKeyEntry ["greeting"] (.str "world") none
      ≠ QueryKey.withDesc ["greeting"] (some (.str "world")) (some QueryType.query) := by
  decide

/-- C4 amended: for a query procedure at path greeting, getQueryKey with
input world and no explicit type argument returns the path paired with a
descriptor holding only the input — no type field, since the absent type
argument defaults to any and any is omitted from descriptors. -/
theorem getQueryKey_default_type :
    procQueryKeyEntry ["greeting"] (.str "world") none
      = QueryKey.withDesc ["greeting"] (some (.str "world")) none := by
  decide

/-- Result of the cache lookup performed by the server procedures: the
source runs queryClient.getQueryCache().find on the derived key and then
tests cache?.state?.data for truthiness. The lookup is modelled as an
Option carrying the state.data value of the found entry; cacheMissing is
the cacheNotFound test of the source. -/
def cacheMissing (found : Option JsVal) : Bool :=
  match found with
  | none => true
  | some d => !truthy d

/-- Outcome of the synchronous-and-awaited part of a server query factory
invocation: the derived cache key, and whether a blocking prefetch was
issued and awaited before the resumable factory is returned. -/
structure ServerQueryStart where
  queryKey : QueryKey
  prefetched : Bool
deriving DecidableEq

/-- Shallow embedding of the prefetch decision of the serverQuery dispatch
entry (src/@lib/src/index.ts lines 836 to 858): derive the key with access
type query, look it up in the query cache, and prefetch exactly when the
ssr option is not the literal false and the lookup found no truthy data.
The cache engine is an opaque map from keys to found entry data. -/
def serverQueryStart (path : List String) (input : JsVal) (opts : JsVal)
    (cache : QueryKey → Option JsVal) : ServerQueryStart :=
  let k := getArrayQueryKey (.ofList path) input (some QueryType.query)
  { queryKey := k,
    prefetched :=
      if jsOptChain opts "ssr" = JsVal.bool false then false
      else cacheMissing (cache k) }

/-- Shallow embedding of the prefetch decision of the serverInfiniteQuery
dispatch entry (src/@lib/src/index.ts lines 945 to 974): identical to
serverQueryStart except that the key carries access type infinite. -/
def serverInfiniteQueryStart (path : List String) (input : JsVal)
    (opts : JsVal) (cache : QueryKey → Option JsVal) : ServerQueryStart :=
  let k := getArrayQueryKey (.ofList path) input (some QueryType.infinite)
  { queryKey := k,
    prefetched :=
      if jsOptChain opts "ssr" = JsVal.bool false then false
      else cacheMissing (cache k) }

/-- C5: for every invocation of the serverQuery and serverInfiniteQuery
factories, the blocking prefetch of the derived key happens if and only if
the cache holds no (truthy) data for that exact key and the ssr option is
not explicitly false; in particular, when the cache already has data for
the key the prefetch is skipped. -/
theorem serverQuery_prefetch_condition (p : List String) (i opts : JsVal)
    (cache : QueryKey → Option JsVal) :
    ((serverQueryStart p i opts cache).prefetched = true
        ↔ (cacheMissing
              (cache (getArrayQueryKey (.ofList p) i (some QueryType.query))) = true
            ∧ jsOptChain opts "ssr" ≠ JsVal.bool false))
      ∧ ((serverInfiniteQueryStart p i opts cache).prefetched = true
        ↔ (cacheMissing
              (cache (getArrayQueryKey (.ofList p) i (some QueryType.infinite))) = true
            ∧ jsOptChain opts "ssr" ≠ JsVal.bool false)) := by
  constructor <;>
    · simp only [serverQueryStart, serverInfiniteQueryStart]
      split <;> simp_all

/-- The phase of the consuming component relative to mount, the two points
between which the source moves the staleness override: the factory
initialises a writable store to Infinity and an onMount callback sets it
to null. -/
inductive MountPhase where
  | beforeMount
  | afterMount
deriving DecidableEq

/-- Value held by the staleTime writable store of the resumed factory in
each phase: Infinity from creation, null once the component has
mounted. -/
def staleTimeStoreVal : MountPhase → JsVal
  | .beforeMount => .inf
  | .afterMount => .null

/-- Options object produced by the derived store callback of the factory
returned by serverQuery: the caller options spread first, then the derived
queryKey, then conditionally the staleTime override — the spread of
staleTime happens only while the store value is truthy, so a null store
value leaves the caller staleness untouched. -/
structure ResumedQueryOptions where
  queryKey : QueryKey
  optsObj : JsVal
deriving DecidableEq

/-- Shallow embedding of the options construction in the factory returned
by the serverQuery entry (src/@lib/src/index.ts lines 860 to 894): the
produced reactive binding uses the key derived from the current input and
overrides staleTime with the store value exactly while that value is
truthy. -/
def resumedQueryOptions (path : List String) (newInput : JsVal)
    (newOpts : JsVal) (phase : MountPhase) : ResumedQueryOptions :=
  let st := staleTimeStoreVal phase
  { queryKey := getArrayQueryKey (.ofList path) newInput (some QueryType.query),
    optsObj := if truthy st then objSetField newOpts "staleTime" st else newOpts }

/-- Helper: setting a field and reading it back yields the written value. -/
theorem jsObjGet_objSetField (v : JsVal) (k : String) (x : JsVal) :
    jsObjGet (objSetField v k x) k = x := by
  induction v with
  | objCons key value rest ihv ihr =>
      by_cases h : key = k <;> simp [objSetField, jsObjGet, h, ihv, ihr]
  | _ => simp [objSetField, jsObjGet]

/-- C6: the binding configured by a server query factory carries the
infinite staleness override from factory invocation until the consuming
component mounts, and after mount the override is dropped so the staleness
configured by the caller applies, while the cache key is the same in both
phases — the server-fetched entry is not refetched before the staleness
window relaxes. -/
theorem serverQuery_staleTime_phases (p : List String) (i opts : JsVal) :
    jsObjGet (resumedQueryOptions p i opts .beforeMount).optsObj "staleTime"
        = JsVal.inf
      ∧ jsObjGet (resumedQueryOptions p i opts .afterMount).optsObj "staleTime"
        = jsObjGet opts "staleTime"
      ∧ (resumedQueryOptions p i opts .beforeMount).queryKey
        = (resumedQueryOptions p i opts .afterMount).queryKey := by
  refine ⟨?_, ?_, ?_⟩
  · simp [resumedQueryOptions, staleTimeStoreVal, truthy, jsObjGet_objSetField]
  · simp [resumedQueryOptions, staleTimeStoreVal, truthy]
  · rfl

/-- What a root-only dispatch entry hands back at the tree root: the utils
sub-proxy accessor (shared by createUtils and its deprecated alias
createContext) or one of the two batch-query combinators. -/
inductive RootEntry where
  | utilsAccessor
  | queriesCombinator
  | serverQueriesCombinator
deriving DecidableEq

/-- Shallow embedding of the createUtils dispatch entry
(src/@lib/src/index.ts lines 1111 to 1114): at a non-empty path the entry
body returns before producing anything (undefined); at the root it returns
the accessor that builds the utils sub-proxy. -/
def procUtilsEntry (path : List String) : Option RootEntry :=
  if path.length ≠ 0 then none else some .utilsAccessor

/-- Shallow embedding of the createContext dispatch entry
(src/@lib/src/index.ts lines 1115 to 1118), the deprecated alias of
createUtils: same guard, same accessor. -/
def procContextEntry (path : List String) : Option RootEntry :=
  if path.length ≠ 0 then none else some .utilsAccessor

/-- Shallow embedding of the createQueries dispatch entry
(src/@lib/src/index.ts lines 1053 to 1061): undefined off the root,
the batch-query combinator at the root. -/
def procQueriesEntry (path : List String) : Option RootEntry :=
  if path.length ≠ 0 then none else some .queriesCombinator

/-- Shallow embedding of the createServerQueries dispatch entry
(src/@lib/src/index.ts lines 1062 to 1110): undefined off the root, the
prefetching batch combinator at the root. -/
def procServerQueriesEntry (path : List String) : Option RootEntry :=
  if path.length ≠ 0 then none else some .serverQueriesCombinator

/-- C7: the four root-only dispatch entries yield nothing (undefined) at
every non-empty path, and at the empty path they yield, respectively, the
utils sub-proxy accessor (for both createUtils and createContext) and the
two batch-query combinators. -/
theorem root_only_entries (p : List String) :
    (procUtilsEntry p, procContextEntry p, procQueriesEntry p,
        procServerQueriesEntry p)
      = if p = [] then
          (some RootEntry.utilsAccessor, some RootEntry.utilsAccessor,
            some RootEntry.queriesCombinator,
            some RootEntry.serverQueriesCombinator)
        else (none, none, none, none) := by
  cases p <;>
    simp [procUtilsEntry, procContextEntry, procQueriesEntry,
      procServerQueriesEntry]

/-- Events reaching a live subscription from outside: the transport firing
the started, data and error handlers, and the component teardown that the
onDestroy callback runs. -/
inductive SubEvent where
  | started
  | data (v : JsVal)
  | error (e : JsVal)
  | teardown
deriving DecidableEq

/-- A callback invocation actually delivered to the caller-supplied
handlers. -/
inductive CallbackCall where
  | onStarted
  | onData (v : JsVal)
  | onError (e : JsVal)
deriving DecidableEq

/-- State of one subscription created by the subscribe dispatch entry: the
isStopped flag, how many times unsubscribe was called on the transport
subscription, and the callbacks delivered to the caller so far. -/
structure SubState where
  isStopped : Bool
  unsubCalls : Nat
  delivered : List CallbackCall
deriving DecidableEq

/-- Initial subscription state: not stopped, nothing delivered. -/
def subInit : SubState := ⟨false, 0, []⟩

/-- Shallow embedding of the handlers installed by the subscribe dispatch
entry (src/@lib/src/index.ts lines 1029 to 1051): each transport callback
is forwarded to the caller only while isStopped is false, and the teardown
registered with onDestroy sets isStopped and calls unsubscribe on the
transport subscription. Every branch is a total state update — the
teardown body has no failure mode. -/
def subStep (s : SubState) : SubEvent → SubState
  | .started =>
      if s.isStopped then s
      else { s with delivered := s.delivered ++ [CallbackCall.onStarted] }
  | .data v =>
      if s.isStopped then s
      else { s with delivered := s.delivered ++ [CallbackCall.onData v] }
  | .error e =>
      if s.isStopped then s
      else { s with delivered := s.delivered ++ [CallbackCall.onError e] }
  | .teardown =>
      { s with isStopped := true, unsubCalls := s.unsubCalls + 1 }

/-- Run a subscription from its initial state through a sequence of
events. -/
def subRun (evs : List SubEvent) : SubState := evs.foldl subStep subInit

/-- Helper: once the isStopped flag is set, a single further event
delivers nothing and leaves the flag set. -/
theorem subStep_stopped (s : SubState) (e : SubEvent) (h : s.isStopped = true) :
    (subStep s e).delivered = s.delivered ∧ (subStep s e).isStopped = true := by
  cases e <;> simp [subStep, h]

/-- Helper: once the isStopped flag is set, no sequence of further events
delivers anything, and the flag stays set. -/
theorem subFold_stopped (evs : List SubEvent) (s : SubState)
    (h : s.isStopped = true) :
    (evs.foldl subStep s).delivered = s.delivered
      ∧ (evs.foldl subStep s).isStopped = true := by
  induction evs generalizing s with
  | nil => exact ⟨rfl, h⟩
  | cons e evs ih =>
      have hs := subStep_stopped s e h
      have hrec := ih (subStep s e) hs.2
      exact ⟨hrec.1.trans hs.1, hrec.2⟩

/-- C8: after teardown has run, no caller callback is ever delivered again
— the delivered list after any further events (and even a second teardown
followed by more events) equals the list at teardown time — and each
teardown is a plain state update that sets the flag and calls the
transport unsubscribe once, so running it twice is harmless. -/
theorem subscription_teardown_drops_callbacks
    (pre mid post : List SubEvent) :
    (subRun (pre ++ SubEvent.teardown :: post)).delivered
        = (subRun pre).delivered
      ∧ (subRun (pre ++ SubEvent.teardown :: mid
            ++ SubEvent.teardown :: post)).delivered
        = (subRun pre).delivered
      ∧ (subRun (pre ++ [SubEvent.teardown])).unsubCalls
        = (subRun pre).unsubCalls + 1 := by
  refine ⟨?_, ?_, ?_⟩
  · rw [subRun, subRun, List.foldl_append, List.foldl_cons]
    have h := subFold_stopped post
      (subStep (List.foldl subStep subInit pre) SubEvent.teardown)
      (by simp [subStep])
    rw [h.1]
    simp [subStep]
  · rw [subRun, subRun]
    rw [show pre ++ SubEvent.teardown :: mid ++ SubEvent.teardown :: post
        = pre ++ (SubEvent.teardown :: mid) ++ (SubEvent.teardown :: post) by
      simp]
    rw [List.foldl_append, List.foldl_append, List.foldl_cons, List.foldl_cons]
    have h1 := subFold_stopped mid
      (subStep (List.foldl subStep subInit pre) SubEvent.teardown)
      (by simp [subStep])
    have h2 := subFold_stopped post
      (subStep (List.foldl subStep
        (subStep (List.foldl subStep subInit pre) SubEvent.teardown) mid)
        SubEvent.teardown)
      (by simp [subStep])
    rw [h2.1]
    have h3 : (subStep (List.foldl subStep
        (subStep (List.foldl subStep subInit pre) SubEvent.teardown) mid)
        SubEvent.teardown).delivered
        = (List.foldl subStep
            (subStep (List.foldl subStep subInit pre) SubEvent.teardown)
            mid).delivered := by
      simp [subStep]
    rw [h3, h1.1]
    simp [subStep]
  · rw [subRun, subRun, List.foldl_append, List.foldl_cons, List.foldl_nil]
    simp [subStep]

/-- One constituent query descriptor produced by the queries-builder
callback inside createServerQueries: its derived cache key, the value of
its ssr option, and — for the timing model — the delay after which its
issued prefetch settles in the cache engine. -/
structure PrefetchTask where
  key : QueryKey
  ssr : JsVal
  duration : Nat
deriving DecidableEq

/-- The per-descriptor prefetch decision inside createServerQueries
(src/@lib/src/index.ts lines 1074 to 1085): prefetch exactly when the
descriptor ssr option is not the literal false and the shared query cache
holds no truthy data for its key. -/
def prefetchWanted (cache : QueryKey → Option JsVal) (q : PrefetchTask) : Bool :=
  if q.ssr = JsVal.bool false then false else cacheMissing (cache q.key)

/-- The descriptors for which createServerQueries issues a prefetch. -/
def wantedTasks (cache : QueryKey → Option JsVal)
    (qs : List PrefetchTask) : List PrefetchTask :=
  qs.filter (prefetchWanted cache)

/-- Events in the timed trace of the prefetch phase: a prefetch being
issued for a key, the cache engine settling that prefetch, and the
combinator resuming after its await. -/
inductive PrefetchEv where
  | issue (k : QueryKey)
  | settle (k : QueryKey)
  | resolved
deriving DecidableEq

/-- The time at which the last wanted prefetch settles. -/
def maxSettleTime (ts : List PrefetchTask) : Nat :=
  ts.foldl (fun acc q => max acc q.duration) 0

/-- Timed trace of the prefetch phase of createServerQueries under the JS
event-loop semantics of awaiting a promiseAll over a map of async
callbacks (src/@lib/src/index.ts lines 1073 to 1085): the map runs every
async callback synchronously up to its first await, in list order, before
any awaited prefetch can settle — so every wanted prefetch is issued at
time 0 — then each issued prefetch settles after its own delay, and the
combinator resumes only once the last one has settled. -/
def serverQueriesTrace (cache : QueryKey → Option JsVal)
    (qs : List PrefetchTask) : List (PrefetchEv × Nat) :=
  (wantedTasks cache qs).map (fun q => (PrefetchEv.issue q.key, 0))
    ++ (wantedTasks cache qs).map (fun q => (PrefetchEv.settle q.key, q.duration))
    ++ [(PrefetchEv.resolved, maxSettleTime (wantedTasks cache qs))]

/-- Timed trace of the sequential foil — awaiting each prefetch before
issuing the next — used to contrast with the concurrent trace the source
produces: each wanted prefetch is issued only when the previous one has
settled, so the resume time is the sum of the delays. -/
def seqPrefetchTraceFrom (cache : QueryKey → Option JsVal) :
    Nat → List PrefetchTask → List (PrefetchEv × Nat)
  | t, [] => [(PrefetchEv.resolved, t)]
  | t, q :: qs =>
      if prefetchWanted cache q then
        (PrefetchEv.issue q.key, t) :: (PrefetchEv.settle q.key, t + q.duration)
          :: seqPrefetchTraceFrom cache (t + q.duration) qs
      else seqPrefetchTraceFrom cache t qs

/-- Helper: the accumulator never exceeds the running maximum of the
settle delays. -/
theorem le_foldl_maxSettle (ts : List PrefetchTask) (a : Nat) :
    a ≤ ts.foldl (fun acc q => max acc q.duration) a := by
  induction ts generalizing a with
  | nil => exact le_refl a
  | cons q ts ih => exact le_trans (le_max_left a q.duration) (ih _)

/-- Helper: the running maximum of the settle delays is monotone in its
accumulator. -/
theorem foldl_maxSettle_mono (ts : List PrefetchTask) (a b : Nat) (h : a ≤ b) :
    ts.foldl (fun acc q => max acc q.duration) a
      ≤ ts.foldl (fun acc q => max acc q.duration) b := by
  induction ts generalizing a b with
  | nil => exact h
  | cons q ts ih => exact ih _ _ (max_le_max h (le_refl _))

/-- Helper: every settle delay in the list is bounded by maxSettleTime. -/
theorem duration_le_maxSettleTime (ts : List PrefetchTask) (q : PrefetchTask)
    (h : q ∈ ts) : q.duration ≤ maxSettleTime ts := by
  induction ts with
  | nil => cases h
  | cons r ts ih =>
      rcases List.mem_cons.mp h with h1 | h1
      · subst h1
        exact le_trans (le_max_right 0 q.duration) (le_foldl_maxSettle ts _)
      · exact le_trans (ih h1)
          (foldl_maxSettle_mono ts 0 (max 0 r.duration) (Nat.zero_le _))

/-- An empty query cache for the concrete timing example. -/
def exEmptyCache : QueryKey → Option JsVal := fun _ => none

/-- Three prefetch tasks with settle delays 10, 20 and 30, the concrete
timing example of the spec. -/
def exThreeTasks : List PrefetchTask :=
  [⟨QueryKey.pathOnly ["a"], JsVal.undefined, 10⟩,
    ⟨QueryKey.pathOnly ["b"], JsVal.undefined, 20⟩,
    ⟨QueryKey.pathOnly ["c"], JsVal.undefined, 30⟩]

/-- C9: in the prefetch phase of createServerQueries, every wanted
prefetch is issued at time 0 and these issue events form the initial
segment of the trace (issued concurrently, before anything settles), the
combinator resumes only at the time the last prefetch settles (every
trace event is at or before that time, and the resume event is last), and
on the concrete 10, 20, 30 example the combinator resumes at 30 while the
sequential foil would resume only at 60. -/
theorem serverQueries_concurrent_prefetch (cache : QueryKey → Option JsVal)
    (qs : List PrefetchTask) :
    ((serverQueriesTrace cache qs).all
        (fun e => decide (e.2 ≤ maxSettleTime (wantedTasks cache qs))) = true)
      ∧ (serverQueriesTrace cache qs).take (wantedTasks cache qs).length
        = (wantedTasks cache qs).map (fun q => (PrefetchEv.issue q.key, 0))
      ∧ (serverQueriesTrace cache qs).getLast?
        = some (PrefetchEv.resolved, maxSettleTime (wantedTasks cache qs))
      ∧ maxSettleTime (wantedTasks exEmptyCache exThreeTasks) = 30
      ∧ (seqPrefetchTraceFrom exEmptyCache 0 exThreeTasks).getLast?
        = some (PrefetchEv.resolved, 60) := by
  refine ⟨?_, ?_, ?_, ?_, ?_⟩
  · rw [List.all_eq_true]
    intro e he
    rw [decide_eq_true_iff]
    simp only [serverQueriesTrace, List.mem_append, List.mem_map,
      List.mem_singleton] at he
    rcases he with (⟨q, _, rfl⟩ | ⟨q, hq, rfl⟩) | rfl
    · exact Nat.zero_le _
    · exact duration_le_maxSettleTime _ q hq
    · exact le_refl _
  · rw [serverQueriesTrace,
      show (wantedTasks cache qs).length
          = ((wantedTasks cache qs).map
              (fun q => (PrefetchEv.issue q.key, 0))).length by
        rw [List.length_map],
      List.append_assoc, List.take_left]
  · rw [serverQueriesTrace, List.getLast?_concat]
  · rfl
  · rfl

/-- The argument object the isMutating util passes to the cache engine:
the mutation key holding exactly the recorded path, with the exact flag
set. -/
structure MutationFilters where
  mutationKey : List (List String)
  exact : Bool
deriving DecidableEq

/-- Shallow embedding of the isMutating util
(src/@lib/src/index.ts lines 760 to 767): the returned operation calls the
cache engine isMutating with the exact mutation key for the path, but the
function body has no return statement, so the computed count is discarded
and the caller receives undefined. The first component records the engine
invocations with the value the engine computed; the second is the value
returned to the caller. -/
def utilsIsMutating (engine : MutationFilters → Nat) (path : List String) :
    List (MutationFilters × Nat) × Option Nat :=
  let filters : MutationFilters := ⟨[path], true⟩
  ([(filters, engine filters)], none)

/-- C10: for every path and every cache-engine state, the isMutating util
invokes the engine exactly once, with the exact mutation key for that
path, and returns none (undefined) to the caller — the computed mutation
count is discarded whatever it was. -/
theorem utils_isMutating_discards_count (engine : MutationFilters → Nat)
    (path : List String) :
    (utilsIsMutating engine path).2 = none
      ∧ (utilsIsMutating engine path).1
        = [(⟨[path], true⟩, engine ⟨[path], true⟩)] := by
  exact ⟨rfl, rfl⟩
